import Mathlib

/-!
Verification of the image handling pipeline of `ironic/common/images.py`.

The Python module is shallowly embedded: pure helpers become Lean functions,
stateful operations become explicit state passing over a small file-system
record, raised exceptions become an `Err` value, and process-wide
configuration (`CONF`) becomes explicit parameters.  External collaborators
(the oslo format-inspection engine, the qemu raw converter, the zstd
decompressor, the HTTP metadata probe) are modelled at their interface
boundary as abstract inputs, exactly as the specification treats them.
-/

namespace Images

/-- Error kinds raised by the module, mirroring the exception classes used by
`ironic/common/images.py` (`exception.InvalidImage`,
`exception.ImageUnacceptable`, `exception.ImageConvertFailed`,
`exception.ImageCreationFailed`, `oslo` image format errors, subprocess
failures, `OSError` and missing-file errors). -/
inductive Err where
  | invalidImage
  | imageUnacceptable
  | imageConvertFailed
  | imageCreationFailed
  | formatError
  | processExecutionError
  | osError
  | fileNotFound
  deriving DecidableEq, Repr

/-- Source: `RAW_IMAGE_FORMATS = {'raw', 'gpt'}  # gpt is a whole-disk image`. -/
def RAW_IMAGE_FORMATS : List String := ["raw", "gpt"]

/-- Source: `image_format_permitted`.  The permitted set is
`CONF.conductor.permitted_image_formats` (passed here explicitly as
`cfg`); if `'raw'` is in the set, `RAW_IMAGE_FORMATS` is added to it. -/
def image_format_permitted (cfg : List String) (img_format : String) : Bool :=
  let permitted := if "raw" ∈ cfg then cfg ++ RAW_IMAGE_FORMATS else cfg
  decide (img_format ∈ permitted)

/-- Source: `image_format_matches`.  The legacy `ari`/`aki` aliases always
match; `raw` matches anything in `RAW_IMAGE_FORMATS`; otherwise the match is
exact equality. -/
def image_format_matches (actual_format expected_format : String) : Bool :=
  if expected_format ∈ ["ari", "aki"] then true
  else if expected_format = "raw" ∧ actual_format ∈ RAW_IMAGE_FORMATS then true
  else decide (expected_format = actual_format)

/-- Source: `check_if_image_format_is_permitted`.  Raises `InvalidImage` when
the format is not permitted by configuration, or when an expected format is
supplied and does not match. -/
def check_if_image_format_is_permitted (cfg : List String) (img_format : String)
    (expected_format : Option String) : Except Err Unit :=
  if ¬ image_format_permitted cfg img_format then .error .invalidImage
  else
    match expected_format with
    | none => .ok ()
    | some e =>
        if ¬ image_format_matches img_format e then .error .invalidImage
        else .ok ()

/-- Descriptor returned by the format-classification engine for one candidate
format: the format name together with the virtual and actual sizes reported
by the inspector (`oslo` `ImageFormatInfo`). -/
structure ImageFormatInfo where
  name : String
  virtual_size : Nat
  actual_size : Nat
  deriving DecidableEq, Repr

/-- Modelled from the spec: the `format` property of the oslo.utils
`InspectWrapper` (an external dependency, present only as an import in the
sources).  Per the spec it fails with a format error when the classification
is "truly ambiguous" (more than one candidate format remains), yields the
single candidate when classification is unambiguous, and yields nothing when
no format matched.  `formats` is the candidate set the streaming
classification finished with. -/
def wrapperFormat (formats : List ImageFormatInfo) :
    Except Err (Option ImageFormatInfo) :=
  match formats with
  | [] => .ok none
  | [f] => .ok (some f)
  | _ :: _ :: _ => .error .formatError

/-- Source: `detect_file_format`, starting from the candidate set the
streaming loop finished with.  It returns `wrapper.format`; if that raises
because several formats matched, the set of format names is compared with
`\x7b'iso', 'gpt'\x7d`: on equality the iso descriptor is returned (a bootable
ISO may legitimately carry a GPT boot record in front), any other
multi-format outcome re-raises the format error. -/
def detect_file_format (formats : List ImageFormatInfo) :
    Except Err (Option ImageFormatInfo) :=
  match wrapperFormat formats with
  | .ok r => .ok r
  | .error _ =>
      if (formats.map (fun f => f.name)).toFinset = ({"iso", "gpt"} : Finset String) then
        match formats.filter (fun f => f.name = "iso") with
        | f :: _ => .ok (some f)
        | [] => .error .formatError
      else .error .formatError

/-- Python `int()` applied to a rational value: truncation toward zero. -/
def pyint (q : ℚ) : ℤ :=
  if 0 ≤ q then ⌊q⌋ else ⌈q⌉

/-- Source: `converted_size`.  `data` is the descriptor returned by
`detect_file_format` for the file; `growth_factor` is the configuration
value `CONF.raw_image_growth_factor` (a float, modelled as an exact
rational).  With `estimate=False` the virtual size is returned, otherwise
`int(min(data.actual_size * growth_factor, data.virtual_size))`. -/
def converted_size (data : ImageFormatInfo) (growth_factor : ℚ)
    (estimate : Bool) : ℤ :=
  if ¬ estimate then (data.virtual_size : ℤ)
  else pyint (min ((data.actual_size : ℚ) * growth_factor) ((data.virtual_size : ℚ)))

/-- First four bytes of a zstd frame, from the source:
`read.startswith(b"\x28\xb5\x2f\xfd")`. -/
def ZSTD_MAGIC : List Nat := [0x28, 0xb5, 0x2f, 0xfd]

/-- A file's first four bytes equal the zstd magic sequence.  Mirrors the
source check: `read(4)` followed by `startswith` of the magic (a shorter
file never matches). -/
def zstdWrapped (content : List Nat) : Bool :=
  decide (content.take 4 = ZSTD_MAGIC)

/-- Outcome of running the external decompressor (`utils.execute('zstd',
'-d', '--rm', temp)`), modelled at the interface boundary: `success out`
means the tool wrote the decompressed bytes `out` at the path obtained by
stripping the `.zstd` suffix and removed its source (`--rm`);
`execError` is a nonzero exit (`processutils.ProcessExecutionError`);
`osError` means the process could not be spawned (`OSError`). -/
inductive ZstdResult where
  | success (out : List Nat)
  | execError
  | osError
  deriving DecidableEq, Repr

/-- The two paths touched by `_handle_zstd_compression`: the original path
and the moved-aside `path + '.zstd'` temporary path.  `none` means no file
exists at the path. -/
structure ZstdState where
  orig : Option (List Nat)
  temp : Option (List Nat)
  deriving DecidableEq, Repr

/-- Result of `_handle_zstd_compression`: the exception that escaped the
call, if any, together with the final file-system state. -/
structure ZstdOutcome where
  err : Option Err
  fs : ZstdState
  deriving DecidableEq, Repr

/-- Source: `_handle_zstd_compression`.  The file (bytes `content`) sits at
the original path.  If its first four bytes match the zstd magic and
decompression is not administratively disabled
(`CONF.conductor.disable_zstandard_decompression`, passed as `disable`),
the file is moved aside to `path + '.zstd'` and the external decompressor
is invoked; only an `OSError` from that invocation is caught, in which case
the compressed file is moved back to the original path. -/
def handle_zstd_compression (disable : Bool)
    (decompress : List Nat → ZstdResult) (content : List Nat) : ZstdOutcome :=
  if zstdWrapped content ∧ ¬ disable then
    match decompress content with
    | .success out => ⟨none, ⟨some out, none⟩⟩
    | .execError => ⟨some .processExecutionError, ⟨none, some content⟩⟩
    | .osError => ⟨none, ⟨some content, none⟩⟩
  else ⟨none, ⟨some content, none⟩⟩

/-- Python `str.startswith`, over the character sequences of the strings. -/
def strStartsWith (s p : String) : Bool :=
  p.data.isPrefixOf s.data

/-- Python `str.endswith`, over the character sequences of the strings. -/
def strEndsWith (s p : String) : Bool :=
  p.data.isSuffixOf s.data

/-- Response of the metadata-only probe (`image_service.validate_href`):
the response headers and the (possibly redirected) response URL. -/
structure ProbeResponse where
  headers : List (String × String)
  url : String
  deriving DecidableEq, Repr

/-- Source: `is_source_a_path`.  `probe` is the outcome of the metadata
probe, `none` meaning the probe raised.  A falsy image source yields
`none`; a `Content-Type` starting with `text/html` yields `some true`; a
non-html `Content-Type` together with a `Content-Length` yields
`some false`; a response URL ending in `/` yields `some true`; otherwise
`some false`. -/
def is_source_a_path (image_source : Option String)
    (probe : Option ProbeResponse) : Option Bool :=
  match image_source with
  | none => none
  | some s =>
      if s = "" then none
      else
        match probe with
        | none => none
        | some res =>
            match res.headers.lookup "Content-Type" with
            | some ct =>
                if strStartsWith ct "text/html" then some true
                else if ct ≠ "text/html" ∧
                    (res.headers.lookup "Content-Length").isSome then some false
                else if strEndsWith res.url "/" then some true
                else some false
            | none =>
                if strEndsWith res.url "/" then some true
                else some false

/-- The per-response classification rule exactly as the claim states it:
true for a text/html Content-Type without a Content-Length, false for a
non-html Content-Type together with a Content-Length, true for a response
URL ending in a slash, false otherwise, in that precedence order.  Used
only to compare the claim's rule against the source's rule. -/
def isPathSource_claimRule (res : ProbeResponse) : Bool :=
  let ct := res.headers.lookup "Content-Type"
  let cl := res.headers.lookup "Content-Length"
  if ct.any (fun c => strStartsWith c "text/html") && cl.isNone then true
  else if ct.any (fun c => ! strStartsWith c "text/html") && cl.isSome then false
  else if strEndsWith res.url "/" then true
  else false

/-- The per-response classification rule the source actually implements:
identical to the claim's rule except that a text/html Content-Type yields
true regardless of whether a Content-Length is present. -/
def isPathSource_codeRule (res : ProbeResponse) : Bool :=
  let ct := res.headers.lookup "Content-Type"
  let cl := res.headers.lookup "Content-Length"
  if ct.any (fun c => strStartsWith c "text/html") then true
  else if ct.any (fun c => ! strStartsWith c "text/html") && cl.isSome then false
  else if strEndsWith res.url "/" then true
  else false

/-- Environment of one `image_to_raw` call: the format detector and safety
inspector (abstract over file contents, identified by a content id), the
external converter, and the configuration values the source reads.
`detect c = none` means the format inspector cannot classify content `c`
(or reports no format); `convert c = none` means the external converter
exits nonzero on content `c`. -/
structure World where
  detect : Nat → Option String
  safetyOk : Nat → Bool
  convert : Nat → Option Nat
  permitted : List String
  deepDisabled : Bool
  memInsufficient : Bool

/-- The three paths `image_to_raw` touches: the final path `path`, the
staging path `path_tmp`, and the converted-staging path
`path + '.converted'`.  `none` means no file exists at the path. -/
structure FS where
  final : Option Nat
  tmp : Option Nat
  staged : Option Nat
  deriving DecidableEq, Repr

/-- Result of one `image_to_raw` call: the exception that escaped, if any,
the final file-system state, and whether the external converter process was
spawned. -/
structure RunResult where
  err : Option Err
  fs : FS
  convCalled : Bool
  deriving DecidableEq, Repr

/-- Source: `safety_check_image` applied to content `c`: detection failure
or an unrecognized format raises `InvalidImage`, as does a failed
format-specific safety inspection; otherwise the format name is returned. -/
def safety_check_image (w : World) (c : Nat) : Except Err String :=
  match w.detect c with
  | none => .error .invalidImage
  | some f => if w.safetyOk c then .ok f else .error .invalidImage

/-- Source: `get_source_format` applied to content `c`: detection failure
or an unrecognized format raises `ImageUnacceptable`; otherwise the format
name is returned. -/
def get_source_format (w : World) (c : Nat) : Except Err String :=
  match w.detect c with
  | none => .error .imageUnacceptable
  | some f => .ok f

/-- Modelled from the spec: `utils.is_memory_insufficient(raise_if_fail=True)`
lives in `ironic.common.utils`, which is not among the provided sources.
Per the spec the conversion step checks that available working memory meets
a minimum threshold, "failing fast with `ImageConvertFailed`". -/
def is_memory_insufficient (w : World) : Except Err Unit :=
  if w.memInsufficient then .error .imageConvertFailed else .ok ()

/-- The format determination step of `image_to_raw` (source lines 564-580):
with deep inspection enabled it runs `safety_check_image` on the staging
file and then the permitted-format check; with deep inspection disabled it
runs `get_source_format` on the file at the final path `path` (the source
passes `path_obj`, not `path_tmp_obj`, there).  Opening a missing file
raises. -/
def image_to_raw_fmt (w : World) (fs : FS) : Except Err String :=
  if ¬ w.deepDisabled then
    match fs.tmp with
    | none => .error .fileNotFound
    | some c =>
        match safety_check_image w c with
        | .error e => .error e
        | .ok f =>
            if ¬ image_format_permitted w.permitted f then .error .invalidImage
            else .ok f
  else
    match fs.final with
    | none => .error .fileNotFound
    | some c => get_source_format w c

/-- Source: `image_to_raw`.  The whole body runs under
`remove_path_on_error(path_tmp)`, so any escaping exception deletes the
staging file; the conversion step additionally runs under
`remove_path_on_error(staged)`.  A format in `RAW_IMAGE_FORMATS` or `iso`
skips conversion and renames staging to final; otherwise the memory guard
runs, the converter writes the converted-staging file, the staging file is
unlinked, the converted file is re-detected, a non-raw result raises
`ImageConvertFailed`, and on success converted-staging is renamed to
final. -/
def image_to_raw (w : World) (fs : FS) : RunResult :=
  match image_to_raw_fmt w fs with
  | .error e => ⟨some e, { fs with tmp := none }, false⟩
  | .ok fmt =>
      if fmt ∉ RAW_IMAGE_FORMATS ∧ fmt ≠ "iso" then
        match is_memory_insufficient w with
        | .error e => ⟨some e, { fs with tmp := none }, false⟩
        | .ok _ =>
            match fs.tmp with
            | none =>
                ⟨some .processExecutionError,
                  { fs with tmp := none, staged := none }, true⟩
            | some c =>
                match w.convert c with
                | none =>
                    ⟨some .processExecutionError,
                      { fs with tmp := none, staged := none }, true⟩
                | some out =>
                    match get_source_format w out with
                    | .error e =>
                        ⟨some e, { fs with tmp := none, staged := none }, true⟩
                    | .ok new_fmt =>
                        if new_fmt ∉ RAW_IMAGE_FORMATS then
                          ⟨some .imageConvertFailed,
                            { fs with tmp := none, staged := none }, true⟩
                        else
                          ⟨none,
                            { final := some out, tmp := none, staged := none },
                            true⟩
      else
        match fs.tmp with
        | none => ⟨some .fileNotFound, { fs with tmp := none }, false⟩
        | some c => ⟨none, { fs with final := some c, tmp := none }, false⟩

/-- Environment of one `create_esp_image_for_uefi` call, modelled at the
interface boundary of the external steps the claim is about: whether the
donor-ISO extraction (`_get_deploy_iso_files`), the root-filesystem copy
(`_create_root_fs`) and the ISO mastering invocation (`mkisofs`) would
succeed. -/
structure EspWorld where
  extractOk : Bool
  rootFsOk : Bool
  mkisofsOk : Bool

/-- Which external steps a `create_esp_image_for_uefi` call actually
invoked. -/
structure EspTrace where
  extractCalled : Bool
  rootFsCalled : Bool
  mkisofsCalled : Bool
  deriving DecidableEq, Repr

/-- Result of one `create_esp_image_for_uefi` call. -/
structure EspResult where
  err : Option Err
  trace : EspTrace
  deriving DecidableEq, Repr

/-- Source: `create_esp_image_for_uefi`, keeping the branch structure on
`deploy_iso`/`esp_image` and the order of the external steps.  With a donor
ISO and no standalone ESP image, the donor ISO is extracted first; with a
standalone ESP image and no donor ISO, no extraction happens; in every
other case `ImageCreationFailed` is raised before any external step.  Then
the root filesystem is built and the mastering tool invoked, each failure
raising `ImageCreationFailed`. -/
def create_esp_image_for_uefi (w : EspWorld)
    (deploy_iso esp_image : Option Nat) : EspResult :=
  match deploy_iso, esp_image with
  | some _, none =>
      if ¬ w.extractOk then ⟨some .imageCreationFailed, ⟨true, false, false⟩⟩
      else if ¬ w.rootFsOk then ⟨some .imageCreationFailed, ⟨true, true, false⟩⟩
      else if ¬ w.mkisofsOk then ⟨some .imageCreationFailed, ⟨true, true, true⟩⟩
      else ⟨none, ⟨true, true, true⟩⟩
  | none, some _ =>
      if ¬ w.rootFsOk then ⟨some .imageCreationFailed, ⟨false, true, false⟩⟩
      else if ¬ w.mkisofsOk then ⟨some .imageCreationFailed, ⟨false, true, true⟩⟩
      else ⟨none, ⟨false, true, true⟩⟩
  | _, _ => ⟨some .imageCreationFailed, ⟨false, false, false⟩⟩

theorem image_format_permitted_iff (cfg : List String) (fmt : String) :
    image_format_permitted cfg fmt = true ↔
      (fmt ∈ cfg ∨ ("raw" ∈ cfg ∧ (fmt = "raw" ∨ fmt = "gpt"))) := by
  unfold image_format_permitted RAW_IMAGE_FORMATS
  by_cases hr : "raw" ∈ cfg
  · simp only [if_pos hr, decide_eq_true_eq, List.mem_append, List.mem_cons,
      List.mem_singleton, List.not_mem_nil, or_false]
    tauto
  · simp only [if_neg hr, decide_eq_true_eq]
    tauto

theorem image_format_matches_iff (fmt e : String) :
    image_format_matches fmt e = true ↔
      (e = fmt ∨ (e = "raw" ∧ (fmt = "raw" ∨ fmt = "gpt")) ∨
       e = "aki" ∨ e = "ari") := by
  unfold image_format_matches RAW_IMAGE_FORMATS
  by_cases h1 : e ∈ ["ari", "aki"]
  · rw [if_pos h1]
    simp only [List.mem_cons, List.mem_singleton, List.not_mem_nil, or_false] at h1
    constructor
    · intro _
      tauto
    · intro _
      rfl
  · rw [if_neg h1]
    simp only [List.mem_cons, List.mem_singleton, List.not_mem_nil, or_false,
      not_or] at h1
    obtain ⟨hari, haki⟩ := h1
    by_cases h2 : e = "raw" ∧ fmt ∈ ["raw", "gpt"]
    · rw [if_pos h2]
      obtain ⟨he, hf⟩ := h2
      simp only [List.mem_cons, List.mem_singleton, List.not_mem_nil,
        or_false] at hf
      constructor
      · intro _
        tauto
      · intro _
        rfl
    · rw [if_neg h2]
      simp only [decide_eq_true_eq]
      constructor
      · intro h
        exact Or.inl h
      · rintro (h | ⟨he, hf⟩ | h | h)
        · exact h
        · exact absurd ⟨he, by rcases hf with h | h <;> simp [h]⟩ h2
        · exact absurd h haki
        · exact absurd h hari

/-- C1: `check_if_image_format_is_permitted(fmt, expected)` succeeds iff the
format is permitted by configuration (with `raw` in the configured set
implying both `raw` and `gpt`) and the expected format, when given, matches
(exactly, or `raw` against a raw-family format, or one of the legacy
`aki`/`ari` aliases); otherwise it fails with `InvalidImage`. -/
theorem check_if_image_format_is_permitted_ok_iff (cfg : List String)
    (fmt : String) (expected : Option String) :
    (check_if_image_format_is_permitted cfg fmt expected = .ok () ↔
      ((fmt ∈ cfg ∨ ("raw" ∈ cfg ∧ (fmt = "raw" ∨ fmt = "gpt"))) ∧
       (expected = none ∨ expected = some fmt ∨
        (expected = some "raw" ∧ (fmt = "raw" ∨ fmt = "gpt")) ∨
        expected = some "aki" ∨ expected = some "ari"))) ∧
    (check_if_image_format_is_permitted cfg fmt expected = .ok () ∨
     check_if_image_format_is_permitted cfg fmt expected = .error .invalidImage) := by
  constructor
  · rw [← image_format_permitted_iff cfg fmt]
    cases expected with
    | none =>
        unfold check_if_image_format_is_permitted
        by_cases hp : image_format_permitted cfg fmt = true <;> simp [hp]
    | some e =>
        simp only [Option.some.injEq, reduceCtorEq, false_or, false_and]
        rw [← image_format_matches_iff fmt e]
        unfold check_if_image_format_is_permitted
        by_cases hp : image_format_permitted cfg fmt = true <;>
          by_cases hm : image_format_matches fmt e = true <;>
            simp [hp, hm]
  · unfold check_if_image_format_is_permitted
    by_cases hp : image_format_permitted cfg fmt = true
    · cases expected with
      | none => simp [hp]
      | some e =>
          by_cases hm : image_format_matches fmt e = true <;> simp [hp, hm]
    · simp [hp]

/-- C10: with `estimate=False`, `converted_size` returns exactly the image's
virtual size; with `estimate=True` it returns
`int(min(actual_size * raw_image_growth_factor, virtual_size))`, and in
particular the estimate never exceeds the virtual size. -/
theorem converted_size_spec (data : ImageFormatInfo) (g : ℚ) :
    converted_size data g false = (data.virtual_size : ℤ) ∧
    converted_size data g true =
      pyint (min ((data.actual_size : ℚ) * g) ((data.virtual_size : ℚ))) ∧
    converted_size data g true ≤ (data.virtual_size : ℤ) := by
  refine ⟨rfl, rfl, ?_⟩
  have hred : converted_size data g true =
      pyint (min ((data.actual_size : ℚ) * g) ((data.virtual_size : ℚ))) := rfl
  rw [hred]
  unfold pyint
  have hqv : min ((data.actual_size : ℚ) * g) ((data.virtual_size : ℚ)) ≤
      ((data.virtual_size : ℚ)) := min_le_right _ _
  by_cases h : (0 : ℚ) ≤ min ((data.actual_size : ℚ) * g) ((data.virtual_size : ℚ))
  · rw [if_pos h]
    have := Int.floor_le_floor hqv
    rwa [Int.floor_natCast] at this
  · rw [if_neg h]
    rw [Int.ceil_le]
    exact_mod_cast hqv

theorem detect_two_candidates (formats : List ImageFormatInfo)
    (h2 : 2 ≤ ((formats.map (fun f => f.name)).toFinset).card) :
    ∃ a b l, formats = a :: b :: l := by
  have hlen : 2 ≤ formats.length := by
    calc 2 ≤ ((formats.map (fun f => f.name)).toFinset).card := h2
      _ ≤ (formats.map (fun f => f.name)).length := (formats.map _).toFinset_card_le
      _ = formats.length := List.length_map _ _
  match formats, hlen with
  | a :: b :: l, _ => exact ⟨a, b, l, rfl⟩

/-- C2: when the streaming classification finishes with the candidate-format
set exactly containing iso and gpt, `detect_file_format` returns the iso
descriptor; when it finishes with any other set of two or more candidate
formats, `detect_file_format` fails with a format error. -/
theorem detect_file_format_multiformat (formats : List ImageFormatInfo)
    (h2 : 2 ≤ ((formats.map (fun f => f.name)).toFinset).card) :
    ((formats.map (fun f => f.name)).toFinset = ({"iso", "gpt"} : Finset String) →
      ∃ f, detect_file_format formats = .ok (some f) ∧ f.name = "iso") ∧
    ((formats.map (fun f => f.name)).toFinset ≠ ({"iso", "gpt"} : Finset String) →
      detect_file_format formats = .error .formatError) := by
  obtain ⟨a, b, l, rfl⟩ := detect_two_candidates _ h2
  constructor
  · intro hset
    have hiso : "iso" ∈ ((a :: b :: l).map (fun f => f.name)) := by
      rw [← List.mem_toFinset, hset]
      simp
    obtain ⟨f, hfmem, hfname⟩ := List.mem_map.mp hiso
    have hfil : f ∈ (a :: b :: l).filter (fun f => f.name = "iso") := by
      rw [List.mem_filter]
      exact ⟨hfmem, by simp [hfname]⟩
    unfold detect_file_format wrapperFormat
    rw [if_pos hset]
    rcases hfl : (a :: b :: l).filter (fun f => f.name = "iso") with _ | ⟨g, t⟩
    · rw [hfl] at hfil
      exact absurd hfil (List.not_mem_nil f)
    · rw [hfl]
      refine ⟨g, rfl, ?_⟩
      have hg : g ∈ (a :: b :: l).filter (fun f => f.name = "iso") := by
        rw [hfl]
        exact List.mem_cons_self g t
      have := (List.mem_filter.mp hg).2
      simpa using this
  · intro hne
    unfold detect_file_format wrapperFormat
    rw [if_neg hne]

/-- Witness for C2: a classification that finishes with the two candidates
qcow2 and vhd is rejected with a format error. -/
theorem detect_file_format_multiformat_witness :
    detect_file_format [⟨"qcow2", 10, 4⟩, ⟨"vhd", 10, 4⟩] = .error .formatError :=
  (detect_file_format_multiformat [⟨"qcow2", 10, 4⟩, ⟨"vhd", 10, 4⟩]
    (by decide)).2 (by decide)

/-- C3: when the detected source format is none of raw, gpt and iso, a
successful `image_to_raw` leaves at the final path a file that re-detects
as raw or gpt; and when the converter's output re-detects outside raw/gpt,
the call fails with `ImageConvertFailed`, the staging and converted-staging
files are removed, and no file exists at the final path. -/
theorem image_to_raw_convert_validated (w : World) (fs : FS) (f : String)
    (hf : image_to_raw_fmt w fs = .ok f)
    (hraw : f ∉ RAW_IMAGE_FORMATS) (hiso : f ≠ "iso") :
    ((image_to_raw w fs).err = none →
      ∃ out nf, (image_to_raw w fs).fs.final = some out ∧
        w.detect out = some nf ∧ nf ∈ RAW_IMAGE_FORMATS) ∧
    (∀ c out nf, fs.tmp = some c → w.convert c = some out →
      w.detect out = some nf → nf ∉ RAW_IMAGE_FORMATS →
      w.memInsufficient = false → fs.final = none →
      (image_to_raw w fs).err = some .imageConvertFailed ∧
      (image_to_raw w fs).fs = ⟨none, none, none⟩ ∧
      (image_to_raw w fs).convCalled = true) := by
  constructor
  · intro hok
    unfold image_to_raw is_memory_insufficient at hok ⊢
    simp only [hf] at hok ⊢
    rw [if_pos ⟨hraw, hiso⟩] at hok ⊢
    cases hmem : w.memInsufficient with
    | true => simp [hmem] at hok
    | false =>
        simp only [hmem] at hok ⊢
        cases htmp : fs.tmp with
        | none => simp [htmp] at hok
        | some c =>
            simp only [htmp] at hok ⊢
            cases hconv : w.convert c with
            | none => simp [hconv] at hok
            | some out =>
                simp only [hconv, get_source_format] at hok ⊢
                cases hdet : w.detect out with
                | none => simp [hdet] at hok
                | some nf =>
                    simp only [hdet] at hok ⊢
                    by_cases hnf : nf ∉ RAW_IMAGE_FORMATS
                    · rw [if_pos hnf] at hok
                      simp at hok
                    · rw [if_neg hnf] at hok ⊢
                      exact ⟨out, nf, rfl, hdet, not_not.mp hnf⟩
  · intro c out nf htmp hconv hdet hnf hmem hfin
    unfold image_to_raw is_memory_insufficient
    simp only [hf]
    rw [if_pos ⟨hraw, hiso⟩]
    simp only [hmem, htmp, hconv, get_source_format, hdet]
    rw [if_pos hnf]
    refine ⟨rfl, ?_, rfl⟩
    simp [hfin]

/-- Concrete environment used by the C3 witness: staging content 0 detects
as qcow2 and the converter turns it into content 1, which detects as
vhd. -/
def W3 : World where
  detect := fun c => if c = 0 then some "qcow2" else if c = 1 then some "vhd" else none
  safetyOk := fun _ => true
  convert := fun _ => some 1
  permitted := ["qcow2"]
  deepDisabled := false
  memInsufficient := false

/-- File-system state used by the C3 witness: the image staged at
`path_tmp`, nothing at the final or converted paths. -/
def FS3 : FS := ⟨none, some 0, none⟩

/-- Witness for C3: a qcow2 staging file whose conversion yields a file
detecting as vhd makes `image_to_raw` fail with `ImageConvertFailed`,
leaving no file behind. -/
theorem image_to_raw_convert_validated_witness :
    (image_to_raw W3 FS3).err = some .imageConvertFailed ∧
    (image_to_raw W3 FS3).fs = ⟨none, none, none⟩ ∧
    (image_to_raw W3 FS3).convCalled = true :=
  (image_to_raw_convert_validated W3 FS3 "qcow2" rfl (by decide) (by decide)).2
    0 1 "vhd" rfl rfl rfl (by decide) rfl rfl

/-- C4: a staged image whose detected format is raw, gpt or iso skips the
conversion step entirely — the external converter is never invoked and the
staging file is renamed unchanged (same content) to the final path, where
it still detects as its original format. -/
theorem image_to_raw_skips_conversion (w : World) (fs : FS) (c : Nat) (f : String)
    (hdeep : w.deepDisabled = false) (htmp : fs.tmp = some c)
    (hdet : w.detect c = some f) (hsafe : w.safetyOk c = true)
    (hperm : image_format_permitted w.permitted f = true)
    (hfmt : f ∈ RAW_IMAGE_FORMATS ∨ f = "iso") :
    image_to_raw w fs = ⟨none, ⟨some c, none, fs.staged⟩, false⟩ := by
  have hf : image_to_raw_fmt w fs = .ok f := by
    unfold image_to_raw_fmt safety_check_image
    simp [hdeep, htmp, hdet, hsafe, hperm]
  unfold image_to_raw
  simp only [hf]
  rw [if_neg (by tauto)]
  rw [htmp]

/-- Concrete environment used by the C4 witness: staging content 5 detects
as iso and is permitted. -/
def W4 : World where
  detect := fun _ => some "iso"
  safetyOk := fun _ => true
  convert := fun _ => none
  permitted := ["iso"]
  deepDisabled := false
  memInsufficient := false

/-- File-system state used by the C4 witness. -/
def FS4 : FS := ⟨none, some 5, none⟩

/-- Witness for C4: an iso staging file is renamed unchanged to the final
path without invoking the converter. -/
theorem image_to_raw_skips_conversion_witness :
    image_to_raw W4 FS4 = ⟨none, ⟨some 5, none, none⟩, false⟩ :=
  image_to_raw_skips_conversion W4 FS4 5 "iso" rfl rfl rfl rfl (by decide)
    (Or.inr rfl)

/-- C6: when available working memory is below the configured minimum and
the detected format is none of raw, gpt and iso, `image_to_raw` fails with
`ImageConvertFailed` and the external converter process is never
spawned. -/
theorem image_to_raw_memory_guard (w : World) (fs : FS) (f : String)
    (hf : image_to_raw_fmt w fs = .ok f)
    (hraw : f ∉ RAW_IMAGE_FORMATS) (hiso : f ≠ "iso")
    (hmem : w.memInsufficient = true) :
    (image_to_raw w fs).err = some .imageConvertFailed ∧
    (image_to_raw w fs).convCalled = false := by
  unfold image_to_raw is_memory_insufficient
  simp only [hf]
  rw [if_pos ⟨hraw, hiso⟩]
  simp [hmem]

/-- Concrete environment used by the C6 witness: same as the C3 environment
but with insufficient working memory. -/
def W6 : World where
  detect := fun c => if c = 0 then some "qcow2" else if c = 1 then some "vhd" else none
  safetyOk := fun _ => true
  convert := fun _ => some 1
  permitted := ["qcow2"]
  deepDisabled := false
  memInsufficient := true

/-- File-system state used by the C6 witness. -/
def FS6 : FS := ⟨none, some 0, none⟩

/-- Witness for C6: with insufficient memory, converting a qcow2 staging
file fails with `ImageConvertFailed` and the converter is never spawned. -/
theorem image_to_raw_memory_guard_witness :
    (image_to_raw W6 FS6).err = some .imageConvertFailed ∧
    (image_to_raw W6 FS6).convCalled = false :=
  image_to_raw_memory_guard W6 FS6 "qcow2" rfl (by decide) (by decide) rfl

/-- C7: `create_esp_image_for_uefi` called with both a donor deploy ISO and
a standalone ESP image, or with neither, fails with `ImageCreationFailed`
before invoking any external step: no donor-ISO extraction, no
root-filesystem copy, no ISO mastering invocation. -/
theorem create_esp_image_for_uefi_exclusive (w : EspWorld) (d e : Option Nat)
    (h : (d = none ∧ e = none) ∨ (d ≠ none ∧ e ≠ none)) :
    create_esp_image_for_uefi w d e =
      ⟨some .imageCreationFailed, ⟨false, false, false⟩⟩ := by
  rcases h with ⟨hd, he⟩ | ⟨hd, he⟩
  · subst hd
    subst he
    rfl
  · rcases d with _ | dv
    · exact absurd rfl hd
    · rcases e with _ | ev
      · exact absurd rfl he
      · rfl

/-- Witness for C7: both inputs supplied, all external steps healthy — the
call still fails with `ImageCreationFailed` and no step is invoked. -/
theorem create_esp_image_for_uefi_exclusive_witness :
    create_esp_image_for_uefi ⟨true, true, true⟩ (some 1) (some 2) =
      ⟨some .imageCreationFailed, ⟨false, false, false⟩⟩ :=
  create_esp_image_for_uefi_exclusive ⟨true, true, true⟩ (some 1) (some 2)
    (Or.inr ⟨by decide, by decide⟩)

/-- Concrete zstd-wrapped byte content used for C5: the zstd magic sequence
followed by one payload byte. -/
def zstdSample : List Nat := [0x28, 0xb5, 0x2f, 0xfd, 0]

/-- C5 counterexample: with decompression enabled and a zstd-wrapped file,
a decompressor that exits nonzero (a `ProcessExecutionError`, which the
source does not catch — it only catches `OSError`) propagates the error and
leaves no file at the original path: the compressed original sits at the
moved-aside temporary path and is not restored. -/
theorem handle_zstd_compression_not_restored :
    zstdWrapped zstdSample = true ∧
    (handle_zstd_compression false (fun _ => .execError) zstdSample).fs.orig = none ∧
    (handle_zstd_compression false (fun _ => .execError) zstdSample).fs.temp =
      some zstdSample ∧
    (handle_zstd_compression false (fun _ => .execError) zstdSample).err =
      some .processExecutionError :=
  ⟨by decide, rfl, rfl, rfl⟩

/-- C5 amended: for a zstd-wrapped file with decompression enabled, a
successful decompression leaves the decompressor's output at the original
path and removes the moved-aside copy; a decompressor that fails to launch
(`OSError`) results in the original compressed file being restored
byte-for-byte at the original path; a decompressor that exits nonzero
propagates the error, leaving the original path empty and the compressed
file at the moved-aside temporary path. -/
theorem handle_zstd_compression_spec (content : List Nat)
    (d : List Nat → ZstdResult) (hz : zstdWrapped content = true) :
    (∀ out, d content = .success out →
      handle_zstd_compression false d content = ⟨none, ⟨some out, none⟩⟩) ∧
    (d content = .osError →
      handle_zstd_compression false d content = ⟨none, ⟨some content, none⟩⟩) ∧
    (d content = .execError →
      handle_zstd_compression false d content =
        ⟨some .processExecutionError, ⟨none, some content⟩⟩) := by
  unfold handle_zstd_compression
  rw [if_pos ⟨hz, by simp⟩]
  refine ⟨?_, ?_, ?_⟩
  · intro out h
    rw [h]
  · intro h
    rw [h]
  · intro h
    rw [h]

/-- Witness for C5 (amended): a decompressor failing with an `OSError`
results in the compressed file being restored at the original path. -/
theorem handle_zstd_compression_spec_witness :
    handle_zstd_compression false (fun _ => .osError) zstdSample =
      ⟨none, ⟨some zstdSample, none⟩⟩ :=
  (handle_zstd_compression_spec zstdSample (fun _ => .osError) (by decide)).2.1 rfl

/-- Environment for the C8 counterexample: content 0 (the staging file)
detects as qcow2, every other content (in particular content 1, the file at
the final path) detects as iso; deep inspection is disabled. -/
def W8 : World where
  detect := fun c => if c = 0 then some "qcow2" else some "iso"
  safetyOk := fun _ => false
  convert := fun _ => none
  permitted := []
  deepDisabled := true
  memInsufficient := true

/-- File-system state for the C8 counterexample: content 1 at the final
path, content 0 staged at `path_tmp`. -/
def FS8 : FS := ⟨some 1, some 0, none⟩

/-- C8 counterexample: with deep inspection disabled, the staging file
detects as qcow2 — not raw, gpt or iso, so detection on the staging file
would have to route the image through the converter — yet the call
succeeds without ever invoking the converter, because the source runs
`get_source_format` on the file at the final path (`path_obj`), which
detects as iso. -/
theorem image_to_raw_detects_final_path :
    W8.deepDisabled = true ∧ FS8.tmp = some 0 ∧ W8.detect 0 = some "qcow2" ∧
    image_to_raw W8 FS8 = ⟨none, ⟨some 0, none, none⟩, false⟩ :=
  ⟨rfl, rfl, rfl, rfl⟩

/-- C8 amended: with deep inspection disabled, `image_to_raw` only detects
the image format, and it does so on the file at the final path `path` (not
the staging file), with no safety inspection and no permitted-format check;
with deep inspection enabled, the safety check and the permitted-format
check are run on the staging file before any conversion is attempted. -/
theorem image_to_raw_inspection_modes (w : World) (fs : FS) :
    (w.deepDisabled = true →
      image_to_raw_fmt w fs =
        (match fs.final with
         | none => .error .fileNotFound
         | some c => get_source_format w c)) ∧
    (∀ c, w.deepDisabled = false → fs.tmp = some c →
      (w.safetyOk c = false →
        (image_to_raw w fs).err = some .invalidImage ∧
        (image_to_raw w fs).convCalled = false) ∧
      (∀ f, w.detect c = some f →
        image_format_permitted w.permitted f = false →
        (image_to_raw w fs).err = some .invalidImage ∧
        (image_to_raw w fs).convCalled = false)) := by
  constructor
  · intro h
    unfold image_to_raw_fmt
    simp [h]
  · intro c hdeep htmp
    constructor
    · intro hsafe
      have hfmt : image_to_raw_fmt w fs = .error .invalidImage := by
        unfold image_to_raw_fmt safety_check_image
        cases hd : w.detect c <;> simp [hdeep, htmp, hd, hsafe]
      unfold image_to_raw
      simp [hfmt]
    · intro f hdet hperm
      have hfmt : image_to_raw_fmt w fs = .error .invalidImage := by
        unfold image_to_raw_fmt safety_check_image
        cases hs : w.safetyOk c <;> simp [hdeep, htmp, hdet, hs, hperm]
      unfold image_to_raw
      simp [hfmt]

/-- Environment for the C8 witness: deep inspection enabled, the safety
inspection fails on the staging content. -/
def W8e : World where
  detect := fun _ => some "qcow2"
  safetyOk := fun _ => false
  convert := fun _ => some 0
  permitted := ["qcow2"]
  deepDisabled := false
  memInsufficient := false

/-- Witness for C8 (amended): with deep inspection enabled and a failing
safety inspection on the staging file, the call is rejected with
`InvalidImage` before any conversion. -/
theorem image_to_raw_inspection_modes_witness :
    (image_to_raw W8e FS8).err = some .invalidImage ∧
    (image_to_raw W8e FS8).convCalled = false :=
  ((image_to_raw_inspection_modes W8e FS8).2 0 rfl rfl).1 rfl

/-- Probe response used for the C9 counterexample: a text/html content type
together with a content length, response URL not ending in a slash. -/
def htmlWithLength : ProbeResponse :=
  ⟨[("Content-Type", "text/html"), ("Content-Length", "146")],
   "http://server/images/listing"⟩

/-- C9 counterexample: on a response carrying a text/html Content-Type
together with a Content-Length, the source returns True — its first check
ignores Content-Length — while the claim's rule (text/html only without a
length, then non-html with a length, then the URL check, else False, in
that order) yields False. -/
theorem is_source_a_path_counterexample :
    is_source_a_path (some "http://server/images/listing") (some htmlWithLength) =
      some true ∧
    isPathSource_claimRule htmlWithLength = false :=
  ⟨by decide, by decide⟩

/-- C9 amended: `is_source_a_path` returns unknown when no source is
supplied or the metadata probe errors, and otherwise classifies the
response in this precedence order: a text/html Content-Type (regardless of
any Content-Length) yields true; a non-html Content-Type together with a
Content-Length yields false; a response URL ending in a slash yields true;
otherwise false. -/
theorem is_source_a_path_spec (src : Option String)
    (probe : Option ProbeResponse) :
    is_source_a_path src probe =
      (match src with
       | none => none
       | some s =>
           if s = "" then none else probe.map isPathSource_codeRule) := by
  rcases src with _ | s
  · rfl
  · by_cases hs : s = ""
    · simp [is_source_a_path, hs]
    · rcases probe with _ | res
      · simp [is_source_a_path, hs]
      · show is_source_a_path (some s) (some res) =
          if s = "" then none else Option.map isPathSource_codeRule (some res)
        have hL : is_source_a_path (some s) (some res) =
            (if s = "" then none else
              (match res.headers.lookup "Content-Type" with
               | some ct =>
                   if strStartsWith ct "text/html" then some true
                   else if ct ≠ "text/html" ∧
                       (res.headers.lookup "Content-Length").isSome then some false
                   else if strEndsWith res.url "/" then some true
                   else some false
               | none =>
                   if strEndsWith res.url "/" then some true
                   else some false)) := rfl
        rw [hL, if_neg hs, if_neg hs, Option.map_some']
        unfold isPathSource_codeRule
        rcases hct : res.headers.lookup "Content-Type" with _ | ct
        · simp only [hct]
          by_cases hu : strEndsWith res.url "/" = true <;> simp [hu]
        · simp only [hct]
          by_cases h1 : strStartsWith ct "text/html" = true
          · simp [h1]
          · have hne : ct ≠ "text/html" := by
              intro he
              rw [he] at h1
              exact h1 (by decide)
            simp only [Bool.not_eq_true] at h1
            by_cases h2 : (res.headers.lookup "Content-Length").isSome = true
            · simp [h1, h2, hne]
            · simp only [Bool.not_eq_true] at h2
              by_cases hu : strEndsWith res.url "/" = true <;>
                simp [h1, h2, hne, hu]

end Images
